import Mathlib

/-!
# The `__threadfence_system` conformance test

A verification development over `catch/unit/threadfence/__threadfence_system.cc`:
the two kernels `WriteKernel` and `ReadKernel` and the two test cases
`Unit___threadfence_system_Positive_Basic_Peer` and
`Unit___threadfence_system_Positive_Basic_Host`.

The test cases are embedded as state passing: every statement of a test case is
a function `St → St`, the state holding the outcome reached so far, the current
device, the sequence of operations issued so far and the memory guards in
scope.  What the GPU runtime answers is an input, the `World`.
-/

namespace Threadfence

/-! ## Constants and scopes of `threadfence_common.hh` -/

/-- The four integer constants of `threadfence_common.hh`; the header is not part
of the sources at hand, so the constants are parameters of the development. -/
structure Consts where
  kInitVal1 : Int
  kInitVal2 : Int
  kSetVal1 : Int
  kSetVal2 : Int
deriving DecidableEq, Repr

/-- Modelled from the spec: the constants of the scenario example of section 8,
`kInitVal1 = 0`, `kInitVal2 = 0`, first written value `1`, second written value `2`. -/
def exampleConsts : Consts := ⟨0, 0, 1, 2⟩

/-- The fence scopes the source names: `ThreadfenceScope::kSystem` and
`ThreadfenceScope::kDevice`. -/
inductive ThreadfenceScope
  | kDevice
  | kSystem
deriving DecidableEq, Repr

/-! ## The oracle -/

/-- The condition under `REQUIRE` at the end of every iteration (lines 96 and 124):
`!(out[0] == kInitVal1 && out[1] == kSetVal2)`. -/
def oracle (c : Consts) (o : Int × Int) : Bool :=
  !(o.1 == c.kInitVal1 && o.2 == c.kSetVal2)

/-! ## The kernels -/

/-- A `dim3` / a block or thread index. -/
structure Dim3 where
  x : Nat
  y : Nat
  z : Nat
deriving DecidableEq, Repr

/-- What one thread does to memory. -/
inductive Access
  | store (slot : Nat) (val : Int)
  | load (slot : Nat)
  | fence (scope : ThreadfenceScope)
  | storeOut (slot : Nat) (fromSlot : Nat)
deriving DecidableEq, Repr

/-- Modelled from the spec: `Write<scope>` of `threadfence_common.hh`, which is not
part of the sources at hand: "writes `v1` then invokes a fence, then writes `v2`". -/
def Write (c : Consts) (scope : ThreadfenceScope) : List Access :=
  [.store 0 c.kSetVal1, .fence scope, .store 1 c.kSetVal2]

/-- Modelled from the spec: `Read<scope>` of `threadfence_common.hh`, which is not
part of the sources at hand: "reads slot 2 then slot 1 (reverse order), invoking a
fence between the two reads, storing results into an output buffer". -/
def Read (scope : ThreadfenceScope) : List Access :=
  [.load 1, .fence scope, .load 0, .storeOut 0 0, .storeOut 1 1]

/-- Unsigned 32-bit wrap-around. -/
def wrap32 (n : Nat) : Nat := n % 2 ^ 32

/-- Conversion of an unsigned 32-bit value to `int`. -/
def toInt32 (u : Nat) : Int := if u < 2 ^ 31 then (u : Int) else (u : Int) - 2 ^ 32

/-- The first line of both kernels (lines 36 and 44):
`int tid = blockIdx.x * blockDim.x + threadIdx.x;`, the right-hand side computed in
unsigned 32-bit arithmetic. -/
def tid (blockIdx blockDim threadIdx : Dim3) : Int :=
  toInt32 (wrap32 (wrap32 (blockIdx.x * blockDim.x) + threadIdx.x))

/-- `WriteKernel` (lines 35-41), as run by the thread `threadIdx` of block `blockIdx`. -/
def WriteKernel (c : Consts) (blockIdx blockDim threadIdx : Dim3) : List Access :=
  if tid blockIdx blockDim threadIdx = 0 then Write c .kSystem else []

/-- `ReadKernel` (lines 43-49), as run by the thread `threadIdx` of block `blockIdx`. -/
def ReadKernel (blockIdx blockDim threadIdx : Dim3) : List Access :=
  if tid blockIdx blockDim threadIdx = 0 then Read .kSystem else []

/-- The thread `(blockIdx, threadIdx)` belongs to the launch `<<<gridDim, blockDim>>>`. -/
def inLaunch (gridDim blockDim blockIdx threadIdx : Dim3) : Prop :=
  blockIdx.x < gridDim.x ∧ blockIdx.y < gridDim.y ∧ blockIdx.z < gridDim.z ∧
  threadIdx.x < blockDim.x ∧ threadIdx.y < blockDim.y ∧ threadIdx.z < blockDim.z

instance (g b i t : Dim3) : Decidable (inLaunch g b i t) := by
  unfold inLaunch; infer_instance

/-! ## Operations, events and the world -/

/-- The memory regions of the two test cases, by the name of their guard. -/
inductive Buf
  | in_dev
  | out_dev
  | out_host
  | in_host
deriving DecidableEq, Repr

/-- The allocation kinds the test cases use. -/
inductive LinearAllocs
  | hipMalloc
  | hipHostMalloc
deriving DecidableEq, Repr

/-- The kernels that are launched. -/
inductive Kernel
  | WriteKernel (inp : Buf)
  | ReadKernel (out inp : Buf)
deriving DecidableEq, Repr

/-- Everything a test case issues: the runtime calls, the plain host statements of the
host scenario, the evaluation of the oracle, and the release of a memory guard.  Every
`hipMemcpy` of the source has the kind `hipMemcpyDefault`, which is left out. -/
inductive Op
  | hipDeviceCanAccessPeer (device peer : Nat)
  | hipSetDevice (device : Nat)
  | alloc (buf : Buf) (kind : LinearAllocs) (bytes : Nat)
  | hipMemsetD32 (buf : Buf) (slot : Nat) (val : Int) (count : Nat)
  | launchKernel (k : Kernel) (numBlocks numThreads : Nat)
  | hipDeviceSynchronize
  | hipMemcpy (dst src : Buf) (bytes : Nat)
  | hostStore (buf : Buf) (slot : Nat) (val : Int)
  | hostRead (scope : ThreadfenceScope) (out inp : Buf)
  | evalOracle (o : Int × Int)
  | release (buf : Buf)
deriving DecidableEq, Repr

/-- The runtime calls: peer-access query, device selection, allocation, memset, kernel
launch, synchronize, copy. -/
def Op.isRuntimeCall : Op → Bool
  | .hipDeviceCanAccessPeer _ _ => true
  | .hipSetDevice _ => true
  | .alloc _ _ _ => true
  | .hipMemsetD32 _ _ _ _ => true
  | .launchKernel _ _ _ => true
  | .hipDeviceSynchronize => true
  | .hipMemcpy _ _ _ => true
  | _ => false

/-- The release of a memory guard. -/
def Op.isRelease : Op → Bool
  | .release _ => true
  | _ => false

/-- The evaluation of the oracle. -/
def Op.isOracle : Op → Bool
  | .evalOracle _ => true
  | _ => false

/-- An issued operation, with the device that was current when it was issued. -/
structure Event where
  device : Nat
  op : Op
deriving DecidableEq, Repr

/-- How a test case ends. -/
inductive Outcome
  | Pass
  | Skip
  | Failure
deriving DecidableEq, Repr

/-- What the test case cannot decide: the answers of the runtime and of the hardware.
`fails n` says whether the runtime call issued as the `n`-th operation of the run returns
an error; `obs i` is the pair found in the output buffer when iteration `i` evaluates the
oracle. -/
structure World where
  deviceCount : Int
  initDevice : Nat
  canAccessPeer : Nat → Nat → Int
  fails : Nat → Bool
  obs : Nat → Int × Int

/-- The state of a running test case. `outcome` is `none` while it runs. -/
structure St where
  outcome : Option Outcome
  device : Nat
  can_access_peer : Int
  trace : List Event
  live : List Buf
deriving DecidableEq, Repr

/-- The result of a test case: its outcome and everything it issued, in order. -/
structure Result where
  outcome : Outcome
  trace : List Event
deriving DecidableEq, Repr

/-! ## Statements -/

/-- The state in which a test case starts: running, nothing issued, no guard in scope;
the local `can_access_peer` is read only after the query has written it. -/
def start (w : World) : St := ⟨none, w.initDevice, 0, [], []⟩

/-- Record an operation as issued, with the device current at that moment. -/
def emit (op : Op) (s : St) : St :=
  { s with trace := s.trace ++ [⟨s.device, op⟩] }

/-- What a runtime call that succeeded changes: `hipSetDevice` the current device,
`hipDeviceCanAccessPeer` its out-parameter, an allocation the guards in scope. -/
def effect (w : World) (op : Op) (s : St) : St :=
  match op with
  | .hipSetDevice d => { s with device := d }
  | .hipDeviceCanAccessPeer a b => { s with can_access_peer := w.canAccessPeer a b }
  | .alloc buf _ _ => { s with live := buf :: s.live }
  | _ => s

/-- Modelled from the spec: the macro `HIP_CHECK` of `hip_test_common.hh`, which is not
part of the sources at hand: "any underlying runtime call failure is a fatal,
immediately-reported test failure - no retry".  A statement of a test case that has
already ended is not executed. -/
def HIP_CHECK (w : World) (op : Op) (s : St) : St :=
  match s.outcome with
  | some _ => s
  | none =>
    if w.fails s.trace.length then { emit op s with outcome := some .Failure }
    else effect w op (emit op s)

/-- Modelled from the spec: `HipTest::launchKernel` of `hip_test_common.hh`, which is not
part of the sources at hand: an asynchronous launch whose failure is fatal.  The shared
memory size `0` and the stream `nullptr` of every launch are left out. -/
def launchKernel (w : World) (k : Kernel) (numBlocks numThreads : Nat) (s : St) : St :=
  HIP_CHECK w (.launchKernel k numBlocks numThreads) s

/-- Modelled from the spec: the constructor of `LinearAllocGuard` of `resource_guards.hh`,
which is not part of the sources at hand: "allocation failure aborts the test case with a
reported error; not retried"; the guard is released on scope exit, see `finish`. -/
def LinearAllocGuard (w : World) (buf : Buf) (kind : LinearAllocs) (bytes : Nat) (s : St) : St :=
  HIP_CHECK w (.alloc buf kind bytes) s

/-- Catch2's `REQUIRE`: the test case ends with a failure when the condition is false. -/
def REQUIRE (cond : St → Bool) (s : St) : St :=
  match s.outcome with
  | some _ => s
  | none => if cond s then s else { s with outcome := some .Failure }

/-- The `REQUIRE` of lines 96 and 124: the oracle is evaluated on the pair `o` found in
the output buffer (for a `hipHostMalloc` guard `ptr()` and `host_ptr()` are one buffer). -/
def REQUIRE_oracle (c : Consts) (o : Int × Int) (s : St) : St :=
  match s.outcome with
  | some _ => s
  | none => REQUIRE (fun _ => oracle c o) (emit (.evalOracle o) s)

/-- A plain host statement: it cannot fail. -/
def hostStmt (op : Op) (s : St) : St :=
  match s.outcome with
  | some _ => s
  | none => emit op s

/-- A block of statements, executed in order. -/
def seq (stmts : List (St → St)) (s : St) : St :=
  stmts.foldl (fun acc stmt => stmt acc) s

/-- The loop body run for `i = 0, 1, ..., n - 1`, in this order. -/
def iterate (body : Nat → St → St) : Nat → St → St
  | 0, s => s
  | n + 1, s => body n (iterate body n s)

/-- The loop `for (int i = 0; i < iterations; ++i)` of lines 81 and 116. -/
def forLoop (iterations : Int) (body : Nat → St → St) (s : St) : St :=
  iterate body iterations.toNat s

/-- Modelled from the spec: scope exit.  The guards in scope are released, the last
constructed first, "on all exit paths, including test failure"; a test case that ran to
its end without failure passes. -/
def finish (s : St) : Result :=
  ⟨s.outcome.getD .Pass, s.trace ++ s.live.map (fun b => ⟨s.device, .release b⟩)⟩

/-! ## The two test cases -/

/-- The body of the loop of the peer-device test case (lines 82-96); `2 * sizeof(int)`
is 8 bytes. -/
def peerIteration (c : Consts) (w : World) (i : Nat) : St → St :=
  seq [
    HIP_CHECK w (.hipMemsetD32 .in_dev 0 c.kInitVal1 1),
    HIP_CHECK w (.hipMemsetD32 .in_dev 1 c.kInitVal2 1),
    launchKernel w (.WriteKernel .in_dev) 1 1,
    HIP_CHECK w (.hipSetDevice 1),
    launchKernel w (.ReadKernel .out_dev .in_dev) 1 1,
    HIP_CHECK w .hipDeviceSynchronize,
    HIP_CHECK w (.hipSetDevice 0),
    HIP_CHECK w .hipDeviceSynchronize,
    HIP_CHECK w (.hipMemcpy .out_host .out_dev 8),
    REQUIRE_oracle c (w.obs i)]

/-- `TEST_CASE("Unit___threadfence_system_Positive_Basic_Peer")` (lines 63-98).  The
device count is what `HipTest::getDeviceCount()` returned; `iterations` is
`cmd_options.iterations`. -/
def Unit___threadfence_system_Positive_Basic_Peer (c : Consts) (w : World)
    (iterations : Int) : Result :=
  if w.deviceCount < 2 then
    ⟨.Skip, []⟩
  else
    finish (seq [
      HIP_CHECK w (.hipDeviceCanAccessPeer 0 1),
      REQUIRE (fun s => s.can_access_peer != 0),
      HIP_CHECK w (.hipSetDevice 0),
      LinearAllocGuard w .in_dev .hipMalloc 8,
      LinearAllocGuard w .out_dev .hipMalloc 8,
      LinearAllocGuard w .out_host .hipHostMalloc 8,
      forLoop iterations (peerIteration c w)] (start w))

/-- The body of the loop of the host test case (lines 117-124). -/
def hostIteration (c : Consts) (w : World) (i : Nat) : St → St :=
  seq [
    hostStmt (.hostStore .in_host 0 c.kInitVal1),
    hostStmt (.hostStore .in_host 1 c.kInitVal2),
    launchKernel w (.WriteKernel .in_host) 1 1,
    hostStmt (.hostRead .kDevice .out_host .in_host),
    HIP_CHECK w .hipDeviceSynchronize,
    REQUIRE_oracle c (w.obs i)]

/-- `TEST_CASE("Unit___threadfence_system_Positive_Basic_Host")` (lines 112-126). -/
def Unit___threadfence_system_Positive_Basic_Host (c : Consts) (w : World)
    (iterations : Int) : Result :=
  finish (seq [
    LinearAllocGuard w .in_host .hipHostMalloc 8,
    LinearAllocGuard w .out_host .hipHostMalloc 8,
    forLoop iterations (hostIteration c w)] (start w))

/-- The two scenarios. -/
inductive Scenario
  | Peer
  | Host
deriving DecidableEq, Repr

/-- The test case of a scenario. -/
def runScenario (sc : Scenario) (c : Consts) (w : World) (iterations : Int) : Result :=
  match sc with
  | .Peer => Unit___threadfence_system_Positive_Basic_Peer c w iterations
  | .Host => Unit___threadfence_system_Positive_Basic_Host c w iterations

/-- A world in which every runtime call succeeds, with `n` devices, peer access as given
and the observations `obs`. -/
def goodWorld (n : Int) (peer : Nat → Nat → Int) (obs : Nat → Int × Int) : World :=
  ⟨n, 0, peer, fun _ => false, obs⟩

/-! ## The operations of a run in which nothing fails -/

/-- The operations of iteration `i` of the peer-device test case when its runtime calls
succeed: the two resets and the producer launch with device 0 current, the selection of
device 1, the consumer launch and the synchronize with device 1 current, the selection of
device 0, the synchronize and the copy with device 0 current, the oracle. -/
def peerIterEvents (c : Consts) (w : World) (i : Nat) : List Event :=
  [⟨0, .hipMemsetD32 .in_dev 0 c.kInitVal1 1⟩,
   ⟨0, .hipMemsetD32 .in_dev 1 c.kInitVal2 1⟩,
   ⟨0, .launchKernel (.WriteKernel .in_dev) 1 1⟩,
   ⟨0, .hipSetDevice 1⟩,
   ⟨1, .launchKernel (.ReadKernel .out_dev .in_dev) 1 1⟩,
   ⟨1, .hipDeviceSynchronize⟩,
   ⟨1, .hipSetDevice 0⟩,
   ⟨0, .hipDeviceSynchronize⟩,
   ⟨0, .hipMemcpy .out_host .out_dev 8⟩,
   ⟨0, .evalOracle (w.obs i)⟩]

/-- The operations of iteration `i` of the host test case when its runtime calls succeed,
`d` being the current device. -/
def hostIterEvents (c : Consts) (w : World) (d : Nat) (i : Nat) : List Event :=
  [⟨d, .hostStore .in_host 0 c.kInitVal1⟩,
   ⟨d, .hostStore .in_host 1 c.kInitVal2⟩,
   ⟨d, .launchKernel (.WriteKernel .in_host) 1 1⟩,
   ⟨d, .hostRead .kDevice .out_host .in_host⟩,
   ⟨d, .hipDeviceSynchronize⟩,
   ⟨d, .evalOracle (w.obs i)⟩]

/-- The operations of the iterations `0, ..., k - 1`, one after the other. -/
def iterTrace (events : Nat → List Event) : Nat → List Event
  | 0 => []
  | k + 1 => iterTrace events k ++ events k

/-- The operations the peer-device test case issues before its loop. -/
def peerSetup (w : World) : List Event :=
  [⟨w.initDevice, .hipDeviceCanAccessPeer 0 1⟩,
   ⟨w.initDevice, .hipSetDevice 0⟩,
   ⟨0, .alloc .in_dev .hipMalloc 8⟩,
   ⟨0, .alloc .out_dev .hipMalloc 8⟩,
   ⟨0, .alloc .out_host .hipHostMalloc 8⟩]

/-- The releases at the end of the peer-device test case. -/
def peerRelease : List Event :=
  [⟨0, .release .out_host⟩, ⟨0, .release .out_dev⟩, ⟨0, .release .in_dev⟩]

/-- The operations the host test case issues before its loop. -/
def hostSetup (w : World) : List Event :=
  [⟨w.initDevice, .alloc .in_host .hipHostMalloc 8⟩,
   ⟨w.initDevice, .alloc .out_host .hipHostMalloc 8⟩]

/-- The releases at the end of the host test case. -/
def hostRelease (w : World) : List Event :=
  [⟨w.initDevice, .release .out_host⟩, ⟨w.initDevice, .release .in_host⟩]

/-- The observations on which the oracle was evaluated, in order. -/
def oracleEvals : List Event → List (Int × Int)
  | [] => []
  | ⟨_, .evalOracle o⟩ :: rest => o :: oracleEvals rest
  | _ :: rest => oracleEvals rest

/-- The operations a scenario issues before its loop when nothing fails. -/
def setupEvents (sc : Scenario) (w : World) : List Event :=
  match sc with
  | .Peer => peerSetup w
  | .Host => hostSetup w

/-- The operations of iteration `i` of a scenario when its runtime calls succeed. -/
def iterEvents (sc : Scenario) (c : Consts) (w : World) (i : Nat) : List Event :=
  match sc with
  | .Peer => peerIterEvents c w i
  | .Host => hostIterEvents c w w.initDevice i

/-- The releases at the end of a scenario whose guards were all constructed. -/
def releaseEvents (sc : Scenario) (w : World) : List Event :=
  match sc with
  | .Peer => peerRelease
  | .Host => hostRelease w

/-! ## What every statement satisfies -/

/-- A runtime call that returned an error is the last operation issued, and the test case
has ended with a failure. -/
def Fatal (w : World) (s : St) : Prop :=
  ∀ n e, s.trace[n]? = some e → e.op.isRuntimeCall = true → w.fails n = true →
    s.outcome = some .Failure ∧ n + 1 = s.trace.length

/-- The three facts shared by all statements: a test case that has ended stays as it is,
the sequence of issued operations only grows, and `Fatal` is kept. -/
structure Stmt (w : World) (f : St → St) : Prop where
  ended : ∀ s, s.outcome ≠ none → f s = s
  grows : ∀ s, ∃ t, (f s).trace = s.trace ++ t
  fatal : ∀ s, Fatal w s → Fatal w (f s)

/-! ## The statements keep the test case well-formed -/

@[simp] theorem effect_trace (w : World) (op : Op) (s : St) :
    (effect w op s).trace = s.trace := by
  cases op <;> rfl

@[simp] theorem effect_outcome (w : World) (op : Op) (s : St) :
    (effect w op s).outcome = s.outcome := by
  cases op <;> rfl

theorem fatal_start (w : World) : Fatal w (start w) := by
  intro n e h
  simp [start] at h

/-- Appending one operation to a running test case keeps `Fatal`, provided the new
operation, when it is a failing runtime call, ends the test case with a failure. -/
theorem fatal_snoc (w : World) (s s1 : St) (ev : Event) (hrun : s.outcome = none)
    (hs : Fatal w s) (htr : s1.trace = s.trace ++ [ev])
    (hnew : ev.op.isRuntimeCall = true → w.fails s.trace.length = true →
      s1.outcome = some .Failure) :
    Fatal w s1 := by
  intro n e hn hcall hf
  rw [htr] at hn
  rcases Nat.lt_trichotomy n s.trace.length with hlt | heq | hgt
  · rw [List.getElem?_append_left hlt] at hn
    have := (hs n e hn hcall hf).1
    rw [hrun] at this
    cases this
  · subst heq
    simp at hn
    subst hn
    refine ⟨hnew hcall hf, ?_⟩
    rw [htr]; simp
  · rw [List.getElem?_eq_none (by simp; omega)] at hn
    cases hn

theorem stmt_HIP_CHECK (w : World) (op : Op) : Stmt w (HIP_CHECK w op) where
  ended := by
    intro s hs
    unfold HIP_CHECK
    cases h : s.outcome with
    | none => exact absurd h hs
    | some o => rfl
  grows := by
    intro s
    unfold HIP_CHECK
    cases h : s.outcome with
    | some o => exact ⟨[], by simp⟩
    | none =>
      by_cases hf : w.fails s.trace.length = true
      · exact ⟨[⟨s.device, op⟩], by simp [hf, emit]⟩
      · exact ⟨[⟨s.device, op⟩], by simp [hf, emit]⟩
  fatal := by
    intro s hs
    unfold HIP_CHECK
    cases h : s.outcome with
    | some o => simpa using hs
    | none =>
      by_cases hf : w.fails s.trace.length = true
      · exact fatal_snoc w s _ ⟨s.device, op⟩ h hs (by simp [hf, emit]) (by simp [hf])
      · exact fatal_snoc w s _ ⟨s.device, op⟩ h hs (by simp [hf, emit])
          (by intro _ h2; exact absurd h2 hf)

theorem stmt_launchKernel (w : World) (k : Kernel) (a b : Nat) :
    Stmt w (launchKernel w k a b) :=
  stmt_HIP_CHECK w _

theorem stmt_LinearAllocGuard (w : World) (buf : Buf) (kind : LinearAllocs) (n : Nat) :
    Stmt w (LinearAllocGuard w buf kind n) :=
  stmt_HIP_CHECK w _

theorem stmt_REQUIRE (w : World) (cond : St → Bool) : Stmt w (REQUIRE cond) where
  ended := by
    intro s hs
    unfold REQUIRE
    cases h : s.outcome with
    | none => exact absurd h hs
    | some o => rfl
  grows := by
    intro s
    refine ⟨[], ?_⟩
    unfold REQUIRE
    cases h : s.outcome with
    | some o => simp
    | none => by_cases hc : cond s = true <;> simp [hc]
  fatal := by
    intro s hs
    unfold REQUIRE
    cases h : s.outcome with
    | some o => simpa using hs
    | none =>
      by_cases hc : cond s = true
      · simpa [hc] using hs
      · intro n e hn hcall hf
        simp [hc] at hn
        have := (hs n e hn hcall hf).1
        rw [h] at this
        cases this

theorem stmt_hostStmt (w : World) (op : Op) (hop : op.isRuntimeCall = false) :
    Stmt w (hostStmt op) where
  ended := by
    intro s hs
    unfold hostStmt
    cases h : s.outcome with
    | none => exact absurd h hs
    | some o => rfl
  grows := by
    intro s
    unfold hostStmt
    cases h : s.outcome with
    | some o => exact ⟨[], by simp⟩
    | none => exact ⟨[⟨s.device, op⟩], by simp [emit]⟩
  fatal := by
    intro s hs
    unfold hostStmt
    cases h : s.outcome with
    | some o => simpa using hs
    | none =>
      exact fatal_snoc w s _ ⟨s.device, op⟩ h hs (by simp [emit])
        (by intro h1; simp [hop] at h1)

theorem stmt_REQUIRE_oracle (w : World) (c : Consts) (o : Int × Int) :
    Stmt w (REQUIRE_oracle c o) where
  ended := by
    intro s hs
    unfold REQUIRE_oracle
    cases h : s.outcome with
    | none => exact absurd h hs
    | some v => rfl
  grows := by
    intro s
    unfold REQUIRE_oracle
    cases h : s.outcome with
    | some v => exact ⟨[], by simp⟩
    | none =>
      refine ⟨[⟨s.device, .evalOracle o⟩], ?_⟩
      by_cases hc : oracle c o = true <;> simp [REQUIRE, emit, h, hc]
  fatal := by
    intro s hs
    unfold REQUIRE_oracle
    cases h : s.outcome with
    | some v => simpa using hs
    | none =>
      refine fatal_snoc w s _ ⟨s.device, .evalOracle o⟩ h hs ?_ (by intro h1; simp [Op.isRuntimeCall] at h1)
      by_cases hc : oracle c o = true <;> simp [REQUIRE, emit, h, hc]

theorem stmt_seq (w : World) (stmts : List (St → St)) (h : ∀ f ∈ stmts, Stmt w f) :
    Stmt w (seq stmts) := by
  induction stmts using List.reverseRecOn with
  | nil =>
    exact ⟨fun s _ => rfl, fun s => ⟨[], by simp [seq]⟩, fun s hs => hs⟩
  | append_singleton fs f ih =>
    have hfs : Stmt w (seq fs) := ih (fun g hg => h g (by simp [hg]))
    have hf : Stmt w f := h f (by simp)
    have hstep : ∀ s, seq (fs ++ [f]) s = f (seq fs s) := by
      intro s; simp [seq, List.foldl_append]
    refine ⟨?_, ?_, ?_⟩
    · intro s hs
      rw [hstep, hfs.ended s hs, hf.ended s hs]
    · intro s
      obtain ⟨t1, h1⟩ := hfs.grows s
      obtain ⟨t2, h2⟩ := hf.grows (seq fs s)
      exact ⟨t1 ++ t2, by rw [hstep, h2, h1, List.append_assoc]⟩
    · intro s hs
      rw [hstep]
      exact hf.fatal _ (hfs.fatal s hs)

theorem stmt_iterate (w : World) (body : Nat → St → St) (h : ∀ i, Stmt w (body i))
    (n : Nat) : Stmt w (iterate body n) := by
  induction n with
  | zero =>
    exact ⟨fun s _ => rfl, fun s => ⟨[], by simp [iterate]⟩, fun s hs => hs⟩
  | succ n ih =>
    refine ⟨?_, ?_, ?_⟩
    · intro s hs
      show body n (iterate body n s) = s
      rw [ih.ended s hs, (h n).ended s hs]
    · intro s
      obtain ⟨t1, h1⟩ := ih.grows s
      obtain ⟨t2, h2⟩ := (h n).grows (iterate body n s)
      exact ⟨t1 ++ t2, by
        show (body n (iterate body n s)).trace = _
        rw [h2, h1, List.append_assoc]⟩
    · intro s hs
      exact (h n).fatal _ (ih.fatal s hs)

theorem stmt_forLoop (w : World) (body : Nat → St → St) (h : ∀ i, Stmt w (body i))
    (iterations : Int) : Stmt w (forLoop iterations body) :=
  stmt_iterate w body h _

theorem stmt_peerIteration (c : Consts) (w : World) (i : Nat) :
    Stmt w (peerIteration c w i) := by
  apply stmt_seq
  intro f hf
  simp only [List.mem_cons, List.mem_singleton, List.not_mem_nil, or_false] at hf
  rcases hf with h | h | h | h | h | h | h | h | h | h <;> subst h
  any_goals exact stmt_HIP_CHECK w _
  exact stmt_REQUIRE_oracle w c _

theorem stmt_hostIteration (c : Consts) (w : World) (i : Nat) :
    Stmt w (hostIteration c w i) := by
  apply stmt_seq
  intro f hf
  simp only [List.mem_cons, List.mem_singleton, List.not_mem_nil, or_false] at hf
  rcases hf with h | h | h | h | h | h <;> subst h
  · exact stmt_hostStmt w _ rfl
  · exact stmt_hostStmt w _ rfl
  · exact stmt_HIP_CHECK w _
  · exact stmt_hostStmt w _ rfl
  · exact stmt_HIP_CHECK w _
  · exact stmt_REQUIRE_oracle w c _

/-! ## Scope exit -/

theorem finish_outcome (s : St) : (finish s).outcome = s.outcome.getD .Pass := rfl

theorem finish_trace (s : St) :
    (finish s).trace = s.trace ++ s.live.map (fun b => ⟨s.device, .release b⟩) := rfl

/-- After a failed runtime call only the guards in scope are released. -/
theorem fatal_finish (w : World) (s : St) (hs : Fatal w s) (n : Nat) (e : Event)
    (he : (finish s).trace[n]? = some e) (hcall : e.op.isRuntimeCall = true)
    (hfail : w.fails n = true) :
    (finish s).outcome = .Failure ∧
      (finish s).trace.drop (n + 1) = s.live.map (fun b => ⟨s.device, .release b⟩) := by
  rw [finish_trace] at he ⊢
  by_cases hlt : n < s.trace.length
  · rw [List.getElem?_append_left hlt] at he
    obtain ⟨ho, hlen⟩ := hs n e he hcall hfail
    refine ⟨by rw [finish_outcome, ho]; rfl, ?_⟩
    rw [hlen, List.drop_left]
  · exfalso
    rw [List.getElem?_append_right (by omega)] at he
    have hmem := List.getElem?_mem he
    simp only [List.mem_map] at hmem
    obtain ⟨b, _, hb⟩ := hmem
    subst hb
    simp [Op.isRuntimeCall] at hcall

theorem stmt_peerBody (c : Consts) (w : World) (iterations : Int) :
    Stmt w (seq [
      HIP_CHECK w (.hipDeviceCanAccessPeer 0 1),
      REQUIRE (fun s => s.can_access_peer != 0),
      HIP_CHECK w (.hipSetDevice 0),
      LinearAllocGuard w .in_dev .hipMalloc 8,
      LinearAllocGuard w .out_dev .hipMalloc 8,
      LinearAllocGuard w .out_host .hipHostMalloc 8,
      forLoop iterations (peerIteration c w)]) := by
  apply stmt_seq
  intro f hf
  simp only [List.mem_cons, List.mem_singleton, List.not_mem_nil, or_false] at hf
  rcases hf with h | h | h | h | h | h | h <;> subst h
  · exact stmt_HIP_CHECK w _
  · exact stmt_REQUIRE w _
  · exact stmt_HIP_CHECK w _
  · exact stmt_HIP_CHECK w _
  · exact stmt_HIP_CHECK w _
  · exact stmt_HIP_CHECK w _
  · exact stmt_forLoop w _ (stmt_peerIteration c w) _

theorem stmt_hostBody (c : Consts) (w : World) (iterations : Int) :
    Stmt w (seq [
      LinearAllocGuard w .in_host .hipHostMalloc 8,
      LinearAllocGuard w .out_host .hipHostMalloc 8,
      forLoop iterations (hostIteration c w)]) := by
  apply stmt_seq
  intro f hf
  simp only [List.mem_cons, List.mem_singleton, List.not_mem_nil, or_false] at hf
  rcases hf with h | h | h <;> subst h
  · exact stmt_HIP_CHECK w _
  · exact stmt_HIP_CHECK w _
  · exact stmt_forLoop w _ (stmt_hostIteration c w) _

theorem release_flags (dev : Nat) (bufs : List Buf) :
    ∀ e ∈ bufs.map (fun b => (⟨dev, .release b⟩ : Event)),
      e.op.isRelease = true ∧ e.op.isRuntimeCall = false ∧ e.op.isOracle = false := by
  intro e he
  simp only [List.mem_map] at he
  obtain ⟨b, _, hb⟩ := he
  subst hb
  exact ⟨rfl, rfl, rfl⟩

/-! ## The oracle (C1) -/

/-- C1: the oracle fails exactly on the observations with `slot1 == kInitVal1` and
`slot2 == kSetVal2`, for every pair of integers; the `REQUIRE` that closes every iteration
of both scenarios ends a running test case with a failure exactly then; with the constants
of the example (`kInitVal1 = 0`, `kSetVal2 = 2`) it rejects `(0,2)` and accepts `(0,0)`,
`(1,2)` and `(1,0)`. -/
theorem oracle_fails_iff_stale_first_new_second :
    (∀ (c : Consts) (o1 o2 : Int),
      oracle c (o1, o2) = false ↔ (o1 = c.kInitVal1 ∧ o2 = c.kSetVal2)) ∧
    (∀ (c : Consts) (o1 o2 : Int) (s : St), s.outcome = none →
      ((REQUIRE_oracle c (o1, o2) s).outcome = some .Failure ↔
        (o1 = c.kInitVal1 ∧ o2 = c.kSetVal2))) ∧
    oracle exampleConsts (0, 2) = false ∧
    oracle exampleConsts (0, 0) = true ∧
    oracle exampleConsts (1, 2) = true ∧
    oracle exampleConsts (1, 0) = true := by
  have key : ∀ (c : Consts) (o1 o2 : Int),
      oracle c (o1, o2) = false ↔ (o1 = c.kInitVal1 ∧ o2 = c.kSetVal2) := by
    intro c o1 o2
    simp [oracle]
  refine ⟨key, ?_, by decide, by decide, by decide, by decide⟩
  intro c o1 o2 s hs
  rw [← key]
  unfold REQUIRE_oracle
  rw [hs]
  cases h : oracle c (o1, o2) <;> simp [REQUIRE, emit, hs, h]

theorem oracle_fails_iff_stale_first_new_second_witness :
    (start (goodWorld 2 (fun _ _ => 1) (fun _ => (0, 2)))).outcome = none ∧
    ((REQUIRE_oracle exampleConsts (0, 2)
        (start (goodWorld 2 (fun _ _ => 1) (fun _ => (0, 2))))).outcome = some .Failure ↔
      ((0 : Int) = exampleConsts.kInitVal1 ∧ (2 : Int) = exampleConsts.kSetVal2)) :=
  ⟨rfl, oracle_fails_iff_stale_first_new_second.2.1 exampleConsts 0 2 _ rfl⟩

/-! ## Skip and the peer-access precondition (C3, C4) -/

/-- C3 (P2): with fewer than two devices the peer-device test case ends with `Skip` and
issues nothing at all: no runtime call, no oracle evaluation. -/
theorem peer_skips_below_two_devices (c : Consts) (w : World) (iterations : Int)
    (h : w.deviceCount < 2) :
    Unit___threadfence_system_Positive_Basic_Peer c w iterations = ⟨.Skip, []⟩ := by
  unfold Unit___threadfence_system_Positive_Basic_Peer
  rw [if_pos h]

theorem peer_skips_below_two_devices_witness :
    (goodWorld 1 (fun _ _ => 1) (fun _ => (1, 2))).deviceCount < 2 ∧
    Unit___threadfence_system_Positive_Basic_Peer exampleConsts
      (goodWorld 1 (fun _ _ => 1) (fun _ => (1, 2))) 3 = ⟨.Skip, []⟩ :=
  ⟨by decide, peer_skips_below_two_devices exampleConsts _ 3 (by decide)⟩

theorem seq_cons (f : St → St) (fs : List (St → St)) (s : St) :
    seq (f :: fs) s = seq fs (f s) := rfl

/-- The peer-device test case when the query succeeds and reports no peer access. -/
theorem peer_no_access (c : Consts) (w : World) (iterations : Int)
    (h2 : 2 ≤ w.deviceCount) (hq : w.fails 0 = false) (hp : w.canAccessPeer 0 1 = 0) :
    Unit___threadfence_system_Positive_Basic_Peer c w iterations =
      ⟨.Failure, [⟨w.initDevice, .hipDeviceCanAccessPeer 0 1⟩]⟩ := by
  unfold Unit___threadfence_system_Positive_Basic_Peer
  rw [if_neg (by omega), seq_cons, seq_cons]
  have hstate : REQUIRE (fun s => s.can_access_peer != 0)
      (HIP_CHECK w (.hipDeviceCanAccessPeer 0 1) (start w)) =
      ⟨some .Failure, w.initDevice, 0, [⟨w.initDevice, .hipDeviceCanAccessPeer 0 1⟩], []⟩ := by
    simp [REQUIRE, HIP_CHECK, start, emit, effect, hq, hp]
  rw [hstate]
  have hrest : Stmt w (seq [
      HIP_CHECK w (.hipSetDevice 0),
      LinearAllocGuard w .in_dev .hipMalloc 8,
      LinearAllocGuard w .out_dev .hipMalloc 8,
      LinearAllocGuard w .out_host .hipHostMalloc 8,
      forLoop iterations (peerIteration c w)]) := by
    apply stmt_seq
    intro f hf
    simp only [List.mem_cons, List.mem_singleton, List.not_mem_nil, or_false] at hf
    rcases hf with h | h | h | h | h <;> subst h
    · exact stmt_HIP_CHECK w _
    · exact stmt_HIP_CHECK w _
    · exact stmt_HIP_CHECK w _
    · exact stmt_HIP_CHECK w _
    · exact stmt_forLoop w _ (stmt_peerIteration c w) _
  rw [hrest.ended _ (by simp)]
  rfl

/-- C4 (P3): with at least two devices, when the peer-access query between device 0 and
device 1 succeeds and reports false, the peer-device test case ends with `Failure` (neither
`Skip` nor `Pass`), and the query is the only operation it has issued: no allocation, no
memset, no kernel launch, no oracle evaluation. -/
theorem peer_access_false_is_failure (c : Consts) (w : World) (iterations : Int)
    (h2 : 2 ≤ w.deviceCount) (hq : w.fails 0 = false) (hp : w.canAccessPeer 0 1 = 0) :
    (Unit___threadfence_system_Positive_Basic_Peer c w iterations).outcome = .Failure ∧
    (Unit___threadfence_system_Positive_Basic_Peer c w iterations).outcome ≠ .Skip ∧
    (Unit___threadfence_system_Positive_Basic_Peer c w iterations).outcome ≠ .Pass ∧
    (Unit___threadfence_system_Positive_Basic_Peer c w iterations).trace =
      [⟨w.initDevice, .hipDeviceCanAccessPeer 0 1⟩] := by
  rw [peer_no_access c w iterations h2 hq hp]
  exact ⟨rfl, by simp, by simp, rfl⟩

theorem peer_access_false_is_failure_witness :
    (Unit___threadfence_system_Positive_Basic_Peer exampleConsts
      (goodWorld 2 (fun _ _ => 0) (fun _ => (1, 2))) 3).outcome = .Failure ∧
    (Unit___threadfence_system_Positive_Basic_Peer exampleConsts
      (goodWorld 2 (fun _ _ => 0) (fun _ => (1, 2))) 3).trace =
      [⟨0, .hipDeviceCanAccessPeer 0 1⟩] :=
  have h := peer_access_false_is_failure exampleConsts
    (goodWorld 2 (fun _ _ => 0) (fun _ => (1, 2))) 3 (by decide) rfl rfl
  ⟨h.1, h.2.2.2⟩

/-! ## Runtime errors (C7) -/

/-- C7: in either scenario, whenever a runtime call (peer-access query, device selection,
allocation, memset, kernel launch, synchronize, copy), issued as the `n`-th operation of the
run, returns an error, the test case ends with `Failure`, and what is issued after that call
is nothing but the release of the memory guards in scope: no runtime call (so the failed
call is not issued again) and no oracle evaluation. -/
theorem runtime_error_is_fatal (sc : Scenario) (c : Consts) (w : World) (iterations : Int)
    (n : Nat) (e : Event)
    (he : (runScenario sc c w iterations).trace[n]? = some e)
    (hcall : e.op.isRuntimeCall = true) (hfail : w.fails n = true) :
    (runScenario sc c w iterations).outcome = .Failure ∧
    ∀ e2 ∈ (runScenario sc c w iterations).trace.drop (n + 1),
      e2.op.isRelease = true ∧ e2.op.isRuntimeCall = false ∧ e2.op.isOracle = false := by
  cases sc with
  | Peer =>
    simp only [runScenario] at he ⊢
    unfold Unit___threadfence_system_Positive_Basic_Peer at he ⊢
    by_cases hd : w.deviceCount < 2
    · rw [if_pos hd] at he
      simp at he
    · rw [if_neg hd] at he ⊢
      have hs := (stmt_peerBody c w iterations).fatal _ (fatal_start w)
      obtain ⟨h1, h2⟩ := fatal_finish w _ hs n e he hcall hfail
      refine ⟨h1, ?_⟩
      rw [h2]
      exact release_flags _ _
  | Host =>
    simp only [runScenario] at he ⊢
    unfold Unit___threadfence_system_Positive_Basic_Host at he ⊢
    have hs := (stmt_hostBody c w iterations).fatal _ (fatal_start w)
    obtain ⟨h1, h2⟩ := fatal_finish w _ hs n e he hcall hfail
    refine ⟨h1, ?_⟩
    rw [h2]
    exact release_flags _ _

theorem runtime_error_is_fatal_witness :
    (runScenario .Peer exampleConsts
      ⟨2, 0, fun _ _ => 1, fun n => n == 7, fun _ => (1, 2)⟩ 2).trace[7]? =
      some ⟨0, .launchKernel (.WriteKernel .in_dev) 1 1⟩ ∧
    (runScenario .Peer exampleConsts
      ⟨2, 0, fun _ _ => 1, fun n => n == 7, fun _ => (1, 2)⟩ 2).outcome = .Failure ∧
    ∀ e2 ∈ (runScenario .Peer exampleConsts
      ⟨2, 0, fun _ _ => 1, fun n => n == 7, fun _ => (1, 2)⟩ 2).trace.drop (7 + 1),
      e2.op.isRelease = true ∧ e2.op.isRuntimeCall = false ∧ e2.op.isOracle = false :=
  ⟨by decide, runtime_error_is_fatal .Peer exampleConsts
    ⟨2, 0, fun _ _ => 1, fun n => n == 7, fun _ => (1, 2)⟩ 2 7
    ⟨0, .launchKernel (.WriteKernel .in_dev) 1 1⟩ (by decide) rfl rfl⟩

/-! ## One iteration whose runtime calls succeed -/

theorem peerIteration_ok (c : Consts) (w : World) (i : Nat) (cap : Int) (tr : List Event)
    (live : List Buf) (hok : ∀ k, k < 9 → w.fails (tr.length + k) = false) :
    peerIteration c w i ⟨none, 0, cap, tr, live⟩ =
      ⟨if oracle c (w.obs i) then none else some .Failure, 0, cap,
        tr ++ peerIterEvents c w i, live⟩ := by
  have h0 := hok 0 (by omega)
  have h1 := hok 1 (by omega)
  have h2 := hok 2 (by omega)
  have h3 := hok 3 (by omega)
  have h4 := hok 4 (by omega)
  have h5 := hok 5 (by omega)
  have h6 := hok 6 (by omega)
  have h7 := hok 7 (by omega)
  have h8 := hok 8 (by omega)
  simp only [Nat.add_zero] at h0
  cases ho : oracle c (w.obs i) <;>
    simp [peerIteration, seq, HIP_CHECK, launchKernel, emit, effect, REQUIRE_oracle, REQUIRE,
      peerIterEvents, h0, h1, h2, h3, h4, h5, h6, h7, h8, ho]

theorem hostIteration_ok (c : Consts) (w : World) (i : Nat) (d : Nat) (cap : Int)
    (tr : List Event) (live : List Buf) (hok : ∀ k, k < 5 → w.fails (tr.length + k) = false) :
    hostIteration c w i ⟨none, d, cap, tr, live⟩ =
      ⟨if oracle c (w.obs i) then none else some .Failure, d, cap,
        tr ++ hostIterEvents c w d i, live⟩ := by
  have h2 := hok 2 (by omega)
  have h4 := hok 4 (by omega)
  cases ho : oracle c (w.obs i) <;>
    simp [hostIteration, seq, HIP_CHECK, launchKernel, emit, effect, REQUIRE_oracle, REQUIRE,
      hostStmt, hostIterEvents, h2, h4, ho]

/-! ## The loop -/

theorem iterTrace_length (events : Nat → List Event) (m : Nat)
    (hlen : ∀ i, (events i).length = m) (k : Nat) :
    (iterTrace events k).length = m * k := by
  induction k with
  | zero => rfl
  | succ k ih => simp [iterTrace, ih, hlen, Nat.mul_succ]

theorem oracleEvals_append (l1 l2 : List Event) :
    oracleEvals (l1 ++ l2) = oracleEvals l1 ++ oracleEvals l2 := by
  induction l1 with
  | nil => rfl
  | cons e l1 ih =>
    obtain ⟨d, op⟩ := e
    cases op <;> simp [oracleEvals, ih]

theorem oracleEvals_iterTrace (events : Nat → List Event) (obs : Nat → Int × Int)
    (h : ∀ i, oracleEvals (events i) = [obs i]) (k : Nat) :
    oracleEvals (iterTrace events k) = (List.range k).map obs := by
  induction k with
  | zero => rfl
  | succ k ih => simp [iterTrace, oracleEvals_append, ih, h, List.range_succ]

/-- As long as the runtime calls succeed and the oracle passes, the loop goes on and has
issued the operations of the iterations it ran. -/
theorem iterate_pass (w : World) (body : Nat → St → St) (events : Nat → List Event)
    (m : Nat) (pass : Nat → Bool) (d : Nat) (cap : Int) (live : List Buf)
    (hlen : ∀ i, (events i).length = m)
    (hbody : ∀ i tr, (∀ n, n < tr.length + m → w.fails n = false) →
      body i ⟨none, d, cap, tr, live⟩ =
        ⟨if pass i then none else some .Failure, d, cap, tr ++ events i, live⟩)
    (tr : List Event) (k : Nat)
    (hok : ∀ n, n < tr.length + m * k → w.fails n = false)
    (hpass : ∀ j, j < k → pass j = true) :
    iterate body k ⟨none, d, cap, tr, live⟩ =
      ⟨none, d, cap, tr ++ iterTrace events k, live⟩ := by
  induction k with
  | zero => simp [iterate, iterTrace]
  | succ k ih =>
    have ih1 := ih (fun n hn => hok n (by rw [Nat.mul_succ]; omega))
      (fun j hj => hpass j (by omega))
    show body k (iterate body k _) = _
    rw [ih1, hbody k _ (fun n hn => hok n (by
      simp only [List.length_append, iterTrace_length events m hlen] at hn
      rw [Nat.mul_succ]; omega))]
    simp [hpass k (by omega), iterTrace, List.append_assoc]

/-- The first iteration on which the oracle fails ends the test case. -/
theorem iterate_fail (w : World) (body : Nat → St → St) (events : Nat → List Event)
    (m : Nat) (pass : Nat → Bool) (d : Nat) (cap : Int) (live : List Buf)
    (hlen : ∀ i, (events i).length = m)
    (hbody : ∀ i tr, (∀ n, n < tr.length + m → w.fails n = false) →
      body i ⟨none, d, cap, tr, live⟩ =
        ⟨if pass i then none else some .Failure, d, cap, tr ++ events i, live⟩)
    (tr : List Event) (k : Nat)
    (hok : ∀ n, n < tr.length + m * (k + 1) → w.fails n = false)
    (hpass : ∀ j, j < k → pass j = true) (hfail : pass k = false) :
    iterate body (k + 1) ⟨none, d, cap, tr, live⟩ =
      ⟨some .Failure, d, cap, tr ++ iterTrace events (k + 1), live⟩ := by
  show body k (iterate body k _) = _
  rw [iterate_pass w body events m pass d cap live hlen hbody tr k
    (fun n hn => hok n (by rw [Nat.mul_succ]; omega)) hpass]
  rw [hbody k _ (fun n hn => hok n (by
    simp only [List.length_append, iterTrace_length events m hlen] at hn
    rw [Nat.mul_succ]; omega))]
  simp [hfail, iterTrace, List.append_assoc]

/-- Once the test case has ended, the remaining iterations change nothing. -/
theorem iterate_ended (w : World) (body : Nat → St → St) (h : ∀ i, Stmt w (body i))
    (s : St) (m N : Nat) (hmN : m ≤ N) (hend : (iterate body m s).outcome ≠ none) :
    iterate body N s = iterate body m s := by
  induction N with
  | zero =>
    have : m = 0 := by omega
    subst this; rfl
  | succ N ih =>
    by_cases hm : m = N + 1
    · subst hm; rfl
    · have ih1 := ih (by omega)
      show body N (iterate body N s) = _
      rw [ih1, (h N).ended _ hend]

/-- What the first iterations issued stays at the head of what the whole loop issues. -/
theorem iterate_grows (w : World) (body : Nat → St → St) (h : ∀ i, Stmt w (body i))
    (s : St) (m N : Nat) (hmN : m ≤ N) :
    ∃ t, (iterate body N s).trace = (iterate body m s).trace ++ t := by
  induction N with
  | zero =>
    have : m = 0 := by omega
    subst this; exact ⟨[], by simp⟩
  | succ N ih =>
    by_cases hm : m = N + 1
    · subst hm; exact ⟨[], by simp⟩
    · obtain ⟨t1, h1⟩ := ih (by omega)
      obtain ⟨t2, h2⟩ := (h N).grows (iterate body N s)
      exact ⟨t1 ++ t2, by
        show (body N (iterate body N s)).trace = _
        rw [h2, h1, List.append_assoc]⟩

/-! ## The test cases up to their loop -/

theorem peer_setup_ok (c : Consts) (w : World) (iterations : Int)
    (h2 : 2 ≤ w.deviceCount) (hp : w.canAccessPeer 0 1 ≠ 0)
    (hok : ∀ n, n < 5 → w.fails n = false) :
    Unit___threadfence_system_Positive_Basic_Peer c w iterations =
      finish (iterate (peerIteration c w) iterations.toNat
        ⟨none, 0, w.canAccessPeer 0 1, peerSetup w, [.out_host, .out_dev, .in_dev]⟩) := by
  unfold Unit___threadfence_system_Positive_Basic_Peer
  rw [if_neg (by omega)]
  have h0 := hok 0 (by omega)
  have h1 := hok 1 (by omega)
  have h2 := hok 2 (by omega)
  have h3 := hok 3 (by omega)
  have h4 := hok 4 (by omega)
  simp [seq, forLoop, HIP_CHECK, LinearAllocGuard, REQUIRE, start, emit, effect, peerSetup,
    h0, h1, h2, h3, h4, hp]

theorem host_setup_ok (c : Consts) (w : World) (iterations : Int)
    (hok : ∀ n, n < 2 → w.fails n = false) :
    Unit___threadfence_system_Positive_Basic_Host c w iterations =
      finish (iterate (hostIteration c w) iterations.toNat
        ⟨none, w.initDevice, 0, hostSetup w, [.out_host, .in_host]⟩) := by
  unfold Unit___threadfence_system_Positive_Basic_Host
  have h0 := hok 0 (by omega)
  have h1 := hok 1 (by omega)
  simp [seq, forLoop, HIP_CHECK, LinearAllocGuard, start, emit, effect, hostSetup, h0, h1]

theorem peerIteration_step (c : Consts) (w : World) (cap : Int) (live : List Buf) :
    ∀ i tr, (∀ n, n < tr.length + 10 → w.fails n = false) →
      peerIteration c w i ⟨none, 0, cap, tr, live⟩ =
        ⟨if oracle c (w.obs i) then none else some .Failure, 0, cap,
          tr ++ peerIterEvents c w i, live⟩ :=
  fun i tr h => peerIteration_ok c w i cap tr live (fun k hk => h _ (by omega))

theorem hostIteration_step (c : Consts) (w : World) (d : Nat) (cap : Int) (live : List Buf) :
    ∀ i tr, (∀ n, n < tr.length + 6 → w.fails n = false) →
      hostIteration c w i ⟨none, d, cap, tr, live⟩ =
        ⟨if oracle c (w.obs i) then none else some .Failure, d, cap,
          tr ++ hostIterEvents c w d i, live⟩ :=
  fun i tr h => hostIteration_ok c w i d cap tr live (fun k hk => h _ (by omega))

/-! ## The whole run when no runtime call fails -/

theorem exists_first_fail (pass : Nat → Bool) (N : Nat)
    (h : ¬ ∀ i, i < N → pass i = true) :
    ∃ k, k < N ∧ (∀ j, j < k → pass j = true) ∧ pass k = false := by
  induction N with
  | zero => exact absurd (fun i hi => absurd hi (Nat.not_lt_zero i)) h
  | succ N ih =>
    by_cases hN : ∀ i, i < N → pass i = true
    · refine ⟨N, Nat.lt_succ_self N, hN, ?_⟩
      cases hp : pass N with
      | false => rfl
      | true =>
        exfalso
        apply h
        intro i hi
        rcases Nat.lt_succ_iff_lt_or_eq.mp hi with h1 | h1
        · exact hN i h1
        · rw [h1]; exact hp
    · obtain ⟨k, hk, h1, h2⟩ := ih hN
      exact ⟨k, Nat.lt_succ_of_lt hk, h1, h2⟩

theorem loop_pass (w : World) (body : Nat → St → St) (events : Nat → List Event)
    (m : Nat) (pass : Nat → Bool) (d : Nat) (cap : Int) (live : List Buf)
    (hlen : ∀ i, (events i).length = m)
    (hbody : ∀ i tr, (∀ n, n < tr.length + m → w.fails n = false) →
      body i ⟨none, d, cap, tr, live⟩ =
        ⟨if pass i then none else some .Failure, d, cap, tr ++ events i, live⟩)
    (tr : List Event) (N : Nat) (hok : ∀ n, w.fails n = false)
    (hpass : ∀ j, j < N → pass j = true) :
    finish (iterate body N ⟨none, d, cap, tr, live⟩) =
      ⟨.Pass, tr ++ iterTrace events N ++ live.map (fun b => ⟨d, .release b⟩)⟩ := by
  rw [iterate_pass w body events m pass d cap live hlen hbody tr N (fun n _ => hok n) hpass]
  rfl

theorem loop_fail (w : World) (body : Nat → St → St) (events : Nat → List Event)
    (m : Nat) (pass : Nat → Bool) (d : Nat) (cap : Int) (live : List Buf)
    (hstmt : ∀ i, Stmt w (body i))
    (hlen : ∀ i, (events i).length = m)
    (hbody : ∀ i tr, (∀ n, n < tr.length + m → w.fails n = false) →
      body i ⟨none, d, cap, tr, live⟩ =
        ⟨if pass i then none else some .Failure, d, cap, tr ++ events i, live⟩)
    (tr : List Event) (N : Nat) (hok : ∀ n, w.fails n = false)
    (k : Nat) (hk : k < N) (hpass : ∀ j, j < k → pass j = true) (hfail : pass k = false) :
    finish (iterate body N ⟨none, d, cap, tr, live⟩) =
      ⟨.Failure, tr ++ iterTrace events (k + 1) ++ live.map (fun b => ⟨d, .release b⟩)⟩ := by
  have h1 := iterate_fail w body events m pass d cap live hlen hbody tr k
    (fun n _ => hok n) hpass hfail
  rw [iterate_ended w body hstmt _ (k + 1) N hk (by rw [h1]; simp), h1]
  rfl

/-- The result of a scenario whose environment lets it reach its loop, when no runtime
call fails and the oracle passes on every iteration. -/
theorem scenario_pass (sc : Scenario) (c : Consts) (w : World) (iterations : Int)
    (hok : ∀ n, w.fails n = false)
    (henv : sc = .Peer → 2 ≤ w.deviceCount ∧ w.canAccessPeer 0 1 ≠ 0)
    (hpass : ∀ i, i < iterations.toNat → oracle c (w.obs i) = true) :
    runScenario sc c w iterations =
      ⟨.Pass, setupEvents sc w ++ iterTrace (iterEvents sc c w) iterations.toNat ++
        releaseEvents sc w⟩ := by
  cases sc with
  | Peer =>
    obtain ⟨h2, hp⟩ := henv rfl
    show Unit___threadfence_system_Positive_Basic_Peer c w iterations = _
    rw [peer_setup_ok c w iterations h2 hp (fun n _ => hok n)]
    exact loop_pass w _ (peerIterEvents c w) 10 (fun i => oracle c (w.obs i)) 0 _ _
      (fun _ => rfl) (peerIteration_step c w _ _) _ _ hok hpass
  | Host =>
    show Unit___threadfence_system_Positive_Basic_Host c w iterations = _
    rw [host_setup_ok c w iterations (fun n _ => hok n)]
    exact loop_pass w _ (hostIterEvents c w w.initDevice) 6 (fun i => oracle c (w.obs i))
      w.initDevice _ _ (fun _ => rfl) (hostIteration_step c w _ _ _) _ _ hok hpass

/-- The result of a scenario whose environment lets it reach its loop, when no runtime
call fails and iteration `k` is the first on which the oracle fails. -/
theorem scenario_fail (sc : Scenario) (c : Consts) (w : World) (iterations : Int)
    (hok : ∀ n, w.fails n = false)
    (henv : sc = .Peer → 2 ≤ w.deviceCount ∧ w.canAccessPeer 0 1 ≠ 0)
    (k : Nat) (hk : k < iterations.toNat)
    (hpass : ∀ j, j < k → oracle c (w.obs j) = true) (hfail : oracle c (w.obs k) = false) :
    runScenario sc c w iterations =
      ⟨.Failure, setupEvents sc w ++ iterTrace (iterEvents sc c w) (k + 1) ++
        releaseEvents sc w⟩ := by
  cases sc with
  | Peer =>
    obtain ⟨h2, hp⟩ := henv rfl
    show Unit___threadfence_system_Positive_Basic_Peer c w iterations = _
    rw [peer_setup_ok c w iterations h2 hp (fun n _ => hok n)]
    exact loop_fail w _ (peerIterEvents c w) 10 (fun i => oracle c (w.obs i)) 0 _ _
      (stmt_peerIteration c w) (fun _ => rfl) (peerIteration_step c w _ _) _ _ hok k hk
      hpass hfail
  | Host =>
    show Unit___threadfence_system_Positive_Basic_Host c w iterations = _
    rw [host_setup_ok c w iterations (fun n _ => hok n)]
    exact loop_fail w _ (hostIterEvents c w w.initDevice) 6 (fun i => oracle c (w.obs i))
      w.initDevice _ _ (stmt_hostIteration c w) (fun _ => rfl) (hostIteration_step c w _ _ _)
      _ _ hok k hk hpass hfail

theorem oracleEvals_run (sc : Scenario) (c : Consts) (w : World) (k : Nat) :
    oracleEvals (setupEvents sc w ++ iterTrace (iterEvents sc c w) k ++ releaseEvents sc w) =
      (List.range k).map w.obs := by
  have hit : oracleEvals (iterTrace (iterEvents sc c w) k) = (List.range k).map w.obs := by
    apply oracleEvals_iterTrace
    intro i
    cases sc <;> rfl
  rw [oracleEvals_append, oracleEvals_append, hit]
  cases sc <;> simp [setupEvents, releaseEvents, peerSetup, hostSetup, peerRelease,
    hostRelease, oracleEvals]

/-! ## Repetition (C6) -/

/-- C6, as stated, fails: with one device the peer-device test case is skipped, although
no runtime call fails and the oracle passes on the observation of the single iteration
asked for; and with two devices and a peer-access query that succeeds and reports false it
fails although no runtime call fails and the oracle would pass. -/
theorem skipped_peer_run_is_not_a_pass :
    (∀ n, (goodWorld 1 (fun _ _ => 1) (fun _ => (1, 2))).fails n = false) ∧
    (∀ i, i < (1 : Int).toNat →
      oracle exampleConsts ((goodWorld 1 (fun _ _ => 1) (fun _ => (1, 2))).obs i) = true) ∧
    (runScenario .Peer exampleConsts
      (goodWorld 1 (fun _ _ => 1) (fun _ => (1, 2))) 1).outcome = .Skip ∧
    oracleEvals (runScenario .Peer exampleConsts
      (goodWorld 1 (fun _ _ => 1) (fun _ => (1, 2))) 1).trace = [] ∧
    (runScenario .Peer exampleConsts
      (goodWorld 2 (fun _ _ => 0) (fun _ => (1, 2))) 1).outcome = .Failure ∧
    oracleEvals (runScenario .Peer exampleConsts
      (goodWorld 2 (fun _ _ => 0) (fun _ => (1, 2))) 1).trace = [] := by
  refine ⟨fun _ => rfl, fun _ _ => rfl, by decide, by decide, by decide, by decide⟩

/-- C6 (P4), amended: in a scenario that reaches its loop (the host scenario always; the
peer-device scenario with at least two devices and a peer-access query reporting true),
when no runtime call fails: the test case passes iff the oracle passes on each of the `N`
observations, and then the oracle was evaluated exactly on these `N` observations (on none
when `N <= 0`); if iteration `k` is the first whose observation violates the oracle, the
test case fails, the oracle was evaluated on the observations `0..k` only, and after the
operations of iteration `k` nothing is issued but the releases of scope exit. -/
theorem scenario_passes_iff_oracle_passes_each_iteration (sc : Scenario) (c : Consts) (w : World) (iterations : Int)
    (hok : ∀ n, w.fails n = false)
    (henv : sc = .Peer → 2 ≤ w.deviceCount ∧ w.canAccessPeer 0 1 ≠ 0) :
    ((runScenario sc c w iterations).outcome = .Pass ↔
      ∀ i, i < iterations.toNat → oracle c (w.obs i) = true) ∧
    ((∀ i, i < iterations.toNat → oracle c (w.obs i) = true) →
      oracleEvals (runScenario sc c w iterations).trace =
        (List.range iterations.toNat).map w.obs) ∧
    (iterations ≤ 0 →
      (runScenario sc c w iterations).outcome = .Pass ∧
      oracleEvals (runScenario sc c w iterations).trace = []) ∧
    (∀ k, k < iterations.toNat → (∀ j, j < k → oracle c (w.obs j) = true) →
      oracle c (w.obs k) = false →
      (runScenario sc c w iterations).outcome = .Failure ∧
      oracleEvals (runScenario sc c w iterations).trace = (List.range (k + 1)).map w.obs ∧
      (runScenario sc c w iterations).trace =
        setupEvents sc w ++ iterTrace (iterEvents sc c w) (k + 1) ++ releaseEvents sc w) := by
  refine ⟨⟨?_, ?_⟩, ?_, ?_, ?_⟩
  · intro hout
    by_contra hne
    obtain ⟨k, hk, h1, h2⟩ := exists_first_fail (fun i => oracle c (w.obs i)) _ hne
    rw [scenario_fail sc c w iterations hok henv k hk h1 h2] at hout
    cases hout
  · intro hpass
    rw [scenario_pass sc c w iterations hok henv hpass]
  · intro hpass
    rw [scenario_pass sc c w iterations hok henv hpass]
    exact oracleEvals_run sc c w _
  · intro hle
    have h0 : iterations.toNat = 0 := by omega
    have hpass : ∀ i, i < iterations.toNat → oracle c (w.obs i) = true := by
      intro i hi; omega
    rw [scenario_pass sc c w iterations hok henv hpass, h0]
    exact ⟨rfl, oracleEvals_run sc c w 0⟩
  · intro k hk h1 h2
    rw [scenario_fail sc c w iterations hok henv k hk h1 h2]
    exact ⟨rfl, oracleEvals_run sc c w (k + 1), rfl⟩

theorem scenario_passes_iff_oracle_passes_each_iteration_witness :
    (∀ n, (goodWorld 2 (fun _ _ => 1)
      (fun i => if i = 1 then (0, 2) else (1, 2))).fails n = false) ∧
    (runScenario .Peer exampleConsts
      (goodWorld 2 (fun _ _ => 1) (fun i => if i = 1 then (0, 2) else (1, 2))) 3).outcome
      = .Failure ∧
    oracleEvals (runScenario .Peer exampleConsts
      (goodWorld 2 (fun _ _ => 1) (fun i => if i = 1 then (0, 2) else (1, 2))) 3).trace
      = [(1, 2), (0, 2)] :=
  have h := (scenario_passes_iff_oracle_passes_each_iteration .Peer exampleConsts
    (goodWorld 2 (fun _ _ => 1) (fun i => if i = 1 then (0, 2) else (1, 2))) 3
    (fun _ => rfl) (fun _ => ⟨by decide, by decide⟩)).2.2.2 1 (by decide)
    (by intro j hj; interval_cases j; rfl) rfl
  ⟨fun _ => rfl, h.1, h.2.1⟩

/-! ## The operations of one iteration (C9, C10) -/

/-- The operations of iteration `i` sit in the run right after those of the setup and of
the iterations before it. -/
theorem iteration_slice (w : World) (body : Nat → St → St) (events : Nat → List Event)
    (m : Nat) (pass : Nat → Bool) (d : Nat) (cap : Int) (live : List Buf)
    (hstmt : ∀ i, Stmt w (body i))
    (hlen : ∀ i, (events i).length = m)
    (hbody : ∀ i tr, (∀ n, n < tr.length + m → w.fails n = false) →
      body i ⟨none, d, cap, tr, live⟩ =
        ⟨if pass i then none else some .Failure, d, cap, tr ++ events i, live⟩)
    (tr : List Event) (N i : Nat) (hi : i < N)
    (hok : ∀ n, n < tr.length + m * (i + 1) → w.fails n = false)
    (hpass : ∀ j, j < i → pass j = true) :
    ((finish (iterate body N ⟨none, d, cap, tr, live⟩)).trace.drop (tr.length + m * i)).take m
      = events i := by
  obtain ⟨t, ht⟩ := iterate_grows w body hstmt ⟨none, d, cap, tr, live⟩ (i + 1) N hi
  have h1 : (iterate body (i + 1) ⟨none, d, cap, tr, live⟩).trace =
      (tr ++ iterTrace events i) ++ events i := by
    show (body i (iterate body i _)).trace = _
    rw [iterate_pass w body events m pass d cap live hlen hbody tr i
      (fun n hn => hok n (by rw [Nat.mul_succ]; omega)) hpass]
    rw [hbody i _ (fun n hn => hok n (by
      simp only [List.length_append, iterTrace_length events m hlen] at hn
      rw [Nat.mul_succ]; omega))]
  have hl : (tr ++ iterTrace events i).length = tr.length + m * i := by
    rw [List.length_append, iterTrace_length events m hlen]
  rw [finish_trace, ht, h1, List.append_assoc, List.append_assoc, ← hl, List.drop_left,
    ← hlen i, List.take_left]

/-- C9: in the peer-device scenario, every iteration `i` that is run and whose runtime
calls succeed issues exactly these operations, in this order: the reset of slot 0 to
`kInitVal1` and of slot 1 to `kInitVal2` and the launch of the producer kernel, all with
device 0 current; the selection of device 1; the launch of the consumer kernel and a
synchronize with device 1 current; the selection of device 0; a synchronize and the copy of
the 8-byte output buffer to the host with device 0 current; the evaluation of the oracle.
So device 0 is current at the head of every iteration and both synchronizes come before the
copy and the oracle. -/
theorem peer_iteration_operations (c : Consts) (w : World) (iterations : Int) (i : Nat)
    (h2 : 2 ≤ w.deviceCount) (hp : w.canAccessPeer 0 1 ≠ 0)
    (hi : (i : Int) < iterations)
    (hok : ∀ n, n < 5 + 10 * (i + 1) → w.fails n = false)
    (hpass : ∀ j, j < i → oracle c (w.obs j) = true) :
    ((Unit___threadfence_system_Positive_Basic_Peer c w iterations).trace.drop
        (5 + 10 * i)).take 10 =
      [⟨0, .hipMemsetD32 .in_dev 0 c.kInitVal1 1⟩,
       ⟨0, .hipMemsetD32 .in_dev 1 c.kInitVal2 1⟩,
       ⟨0, .launchKernel (.WriteKernel .in_dev) 1 1⟩,
       ⟨0, .hipSetDevice 1⟩,
       ⟨1, .launchKernel (.ReadKernel .out_dev .in_dev) 1 1⟩,
       ⟨1, .hipDeviceSynchronize⟩,
       ⟨1, .hipSetDevice 0⟩,
       ⟨0, .hipDeviceSynchronize⟩,
       ⟨0, .hipMemcpy .out_host .out_dev 8⟩,
       ⟨0, .evalOracle (w.obs i)⟩] := by
  rw [peer_setup_ok c w iterations h2 hp (fun n hn => hok n (by omega))]
  exact iteration_slice w _ (peerIterEvents c w) 10 (fun j => oracle c (w.obs j)) 0 _ _
    (stmt_peerIteration c w) (fun _ => rfl) (peerIteration_step c w _ _) (peerSetup w)
    iterations.toNat i (by omega) hok hpass

theorem peer_iteration_operations_witness :
    (2 : Int) ≤ (goodWorld 2 (fun _ _ => 1) (fun _ => (1, 2))).deviceCount ∧
    ((Unit___threadfence_system_Positive_Basic_Peer exampleConsts
        (goodWorld 2 (fun _ _ => 1) (fun _ => (1, 2))) 3).trace.drop (5 + 10 * 2)).take 10 =
      [⟨0, .hipMemsetD32 .in_dev 0 0 1⟩,
       ⟨0, .hipMemsetD32 .in_dev 1 0 1⟩,
       ⟨0, .launchKernel (.WriteKernel .in_dev) 1 1⟩,
       ⟨0, .hipSetDevice 1⟩,
       ⟨1, .launchKernel (.ReadKernel .out_dev .in_dev) 1 1⟩,
       ⟨1, .hipDeviceSynchronize⟩,
       ⟨1, .hipSetDevice 0⟩,
       ⟨0, .hipDeviceSynchronize⟩,
       ⟨0, .hipMemcpy .out_host .out_dev 8⟩,
       ⟨0, .evalOracle (1, 2)⟩] :=
  ⟨by decide, peer_iteration_operations exampleConsts
    (goodWorld 2 (fun _ _ => 1) (fun _ => (1, 2))) 3 2 (by decide) (by decide) (by decide)
    (fun _ _ => rfl) (fun _ _ => rfl)⟩

/-- C10, as stated, fails: in a run of the host test case with one iteration in which
nothing fails, the host-side read is the operation at position 5 and the first (and only)
device synchronize is the operation at position 6, so the read is issued before the host
thread has synchronized with the device. -/
theorem host_read_precedes_synchronize :
    ((Unit___threadfence_system_Positive_Basic_Host exampleConsts
      (goodWorld 1 (fun _ _ => 0) (fun _ => (1, 2))) 1).trace.map Event.op) =
      [.alloc .in_host .hipHostMalloc 8,
       .alloc .out_host .hipHostMalloc 8,
       .hostStore .in_host 0 0,
       .hostStore .in_host 1 0,
       .launchKernel (.WriteKernel .in_host) 1 1,
       .hostRead .kDevice .out_host .in_host,
       .hipDeviceSynchronize,
       .evalOracle (1, 2),
       .release .out_host,
       .release .in_host] ∧
    ((Unit___threadfence_system_Positive_Basic_Host exampleConsts
      (goodWorld 1 (fun _ _ => 0) (fun _ => (1, 2))) 1).trace.map Event.op).indexOf
        (.hostRead .kDevice .out_host .in_host) = 5 ∧
    ((Unit___threadfence_system_Positive_Basic_Host exampleConsts
      (goodWorld 1 (fun _ _ => 0) (fun _ => (1, 2))) 1).trace.map Event.op).indexOf
        .hipDeviceSynchronize = 6 := by
  refine ⟨by decide, by decide, by decide⟩

/-- C10, amended: in the host scenario, every iteration `i` that is run and whose runtime
calls succeed issues exactly these operations, in this order: the two host stores that
reset the input buffer, the launch of the producer kernel, the host-side read with Device
scope, one device synchronize, the evaluation of the oracle.  Exactly one synchronize is
issued; the host-side read is issued after the launch and before that synchronize, and the
synchronize comes before the oracle. -/
theorem host_iteration_operations (c : Consts) (w : World) (iterations : Int) (i : Nat)
    (hi : (i : Int) < iterations)
    (hok : ∀ n, n < 2 + 6 * (i + 1) → w.fails n = false)
    (hpass : ∀ j, j < i → oracle c (w.obs j) = true) :
    ((Unit___threadfence_system_Positive_Basic_Host c w iterations).trace.drop
        (2 + 6 * i)).take 6 =
      [⟨w.initDevice, .hostStore .in_host 0 c.kInitVal1⟩,
       ⟨w.initDevice, .hostStore .in_host 1 c.kInitVal2⟩,
       ⟨w.initDevice, .launchKernel (.WriteKernel .in_host) 1 1⟩,
       ⟨w.initDevice, .hostRead .kDevice .out_host .in_host⟩,
       ⟨w.initDevice, .hipDeviceSynchronize⟩,
       ⟨w.initDevice, .evalOracle (w.obs i)⟩] := by
  rw [host_setup_ok c w iterations (fun n hn => hok n (by omega))]
  exact iteration_slice w _ (hostIterEvents c w w.initDevice) 6
    (fun j => oracle c (w.obs j)) w.initDevice _ _
    (stmt_hostIteration c w) (fun _ => rfl) (hostIteration_step c w _ _ _) (hostSetup w)
    iterations.toNat i (by omega) hok hpass

theorem host_iteration_operations_witness :
    ((1 : Nat) : Int) < 2 ∧
    ((Unit___threadfence_system_Positive_Basic_Host exampleConsts
        (goodWorld 1 (fun _ _ => 0) (fun _ => (1, 2))) 2).trace.drop (2 + 6 * 1)).take 6 =
      [⟨0, .hostStore .in_host 0 0⟩,
       ⟨0, .hostStore .in_host 1 0⟩,
       ⟨0, .launchKernel (.WriteKernel .in_host) 1 1⟩,
       ⟨0, .hostRead .kDevice .out_host .in_host⟩,
       ⟨0, .hipDeviceSynchronize⟩,
       ⟨0, .evalOracle (1, 2)⟩] :=
  ⟨by decide, host_iteration_operations exampleConsts
    (goodWorld 1 (fun _ _ => 0) (fun _ => (1, 2))) 2 1 (by decide)
    (fun _ _ => rfl) (fun _ _ => rfl)⟩

/-! ## What the peer-device scenario requires (C5) -/

/-- C5, as stated, fails: with two devices and peer access unavailable between device 0
and device 1 in both directions, the peer-device test case is not skipped: it fails, after
its peer-access query and before any iteration. -/
theorem peer_unavailable_is_not_skipped :
    (goodWorld 2 (fun _ _ => 0) (fun _ => (1, 2))).canAccessPeer 0 1 = 0 ∧
    (goodWorld 2 (fun _ _ => 0) (fun _ => (1, 2))).canAccessPeer 1 0 = 0 ∧
    (Unit___threadfence_system_Positive_Basic_Peer exampleConsts
      (goodWorld 2 (fun _ _ => 0) (fun _ => (1, 2))) 1) =
      ⟨.Failure, [⟨0, .hipDeviceCanAccessPeer 0 1⟩]⟩ ∧
    (Unit___threadfence_system_Positive_Basic_Peer exampleConsts
      (goodWorld 2 (fun _ _ => 0) (fun _ => (1, 2))) 1).outcome ≠ .Skip := by
  refine ⟨rfl, rfl, by decide, by decide⟩

/-- C5, amended: the peer-device scenario requires at least 2 devices and peer access
between device 0 and device 1.  With fewer than 2 devices the test case is skipped, not
failed, and nothing is issued; with at least 2 devices, when the peer-access query of the
test case succeeds and reports no peer access, the test case fails (it is not skipped) and
no iteration is run: the query is the only operation issued. -/
theorem peer_requirements (c : Consts) (w : World) (iterations : Int) :
    (w.deviceCount < 2 →
      Unit___threadfence_system_Positive_Basic_Peer c w iterations = ⟨.Skip, []⟩) ∧
    (2 ≤ w.deviceCount → w.fails 0 = false → w.canAccessPeer 0 1 = 0 →
      Unit___threadfence_system_Positive_Basic_Peer c w iterations =
        ⟨.Failure, [⟨w.initDevice, .hipDeviceCanAccessPeer 0 1⟩]⟩ ∧
      (Unit___threadfence_system_Positive_Basic_Peer c w iterations).outcome ≠ .Skip ∧
      oracleEvals (Unit___threadfence_system_Positive_Basic_Peer c w iterations).trace
        = []) := by
  refine ⟨?_, ?_⟩
  · intro h
    unfold Unit___threadfence_system_Positive_Basic_Peer
    rw [if_pos h]
  · intro h2 hq hp
    rw [peer_no_access c w iterations h2 hq hp]
    exact ⟨rfl, by simp, rfl⟩

theorem peer_requirements_witness :
    (2 : Int) ≤ (goodWorld 2 (fun _ _ => 0) (fun _ => (1, 2))).deviceCount ∧
    Unit___threadfence_system_Positive_Basic_Peer exampleConsts
      (goodWorld 2 (fun _ _ => 0) (fun _ => (1, 2))) 3 =
      ⟨.Failure, [⟨0, .hipDeviceCanAccessPeer 0 1⟩]⟩ :=
  ⟨by decide, ((peer_requirements exampleConsts
    (goodWorld 2 (fun _ _ => 0) (fun _ => (1, 2))) 3).2 (by decide) rfl rfl).1⟩

/-! ## The guard of the kernels (C8) -/

theorem tid_eq_zero_iff (gridDim blockDim blockIdx threadIdx : Dim3)
    (hsz : gridDim.x * blockDim.x ≤ 2 ^ 32)
    (hb : blockIdx.x < gridDim.x) (ht : threadIdx.x < blockDim.x) :
    tid blockIdx blockDim threadIdx = 0 ↔ (blockIdx.x = 0 ∧ threadIdx.x = 0) := by
  have h1 : (blockIdx.x + 1) * blockDim.x ≤ gridDim.x * blockDim.x :=
    Nat.mul_le_mul_right _ hb
  have h2 : (blockIdx.x + 1) * blockDim.x = blockIdx.x * blockDim.x + blockDim.x := by
    rw [Nat.add_mul, Nat.one_mul]
  have h3 : blockIdx.x * blockDim.x + threadIdx.x < 2 ^ 32 := by omega
  have h4 : blockIdx.x * blockDim.x < 2 ^ 32 := by omega
  have hw : wrap32 (wrap32 (blockIdx.x * blockDim.x) + threadIdx.x) =
      blockIdx.x * blockDim.x + threadIdx.x := by
    unfold wrap32
    rw [Nat.mod_eq_of_lt h4, Nat.mod_eq_of_lt h3]
  unfold tid
  rw [hw]
  unfold toInt32
  constructor
  · intro h
    have h5 : blockIdx.x * blockDim.x + threadIdx.x = 0 := by
      split at h
      · exact_mod_cast h
      · exfalso
        have : ((blockIdx.x * blockDim.x + threadIdx.x : Nat) : Int) < 2 ^ 32 := by
          exact_mod_cast h3
        omega
    have h6 : threadIdx.x = 0 := by omega
    have h7 : blockIdx.x * blockDim.x = 0 := by omega
    rcases Nat.mul_eq_zero.mp h7 with h8 | h8
    · exact ⟨h8, h6⟩
    · omega
  · rintro ⟨h5, h6⟩
    rw [h5, h6]
    simp

/-- C8, as stated, fails.  In the one-dimensional launch of 4194305 blocks of 1024 threads
the thread 0 of block 4194304 belongs to the launch and is not the first logical thread, yet
its `tid` wraps around to 0 and it performs the write (or the read); and in the launch of a
`1 x 2 x 1` grid of one-thread blocks the block `(0, 1, 0)` has `tid == 0` as well. -/
theorem guard_admits_other_threads :
    inLaunch ⟨4194305, 1, 1⟩ ⟨1024, 1, 1⟩ ⟨4194304, 0, 0⟩ ⟨0, 0, 0⟩ ∧
    (⟨4194304, 0, 0⟩ : Dim3) ≠ ⟨0, 0, 0⟩ ∧
    WriteKernel exampleConsts ⟨4194304, 0, 0⟩ ⟨1024, 1, 1⟩ ⟨0, 0, 0⟩ =
      Write exampleConsts .kSystem ∧
    ReadKernel ⟨4194304, 0, 0⟩ ⟨1024, 1, 1⟩ ⟨0, 0, 0⟩ = Read .kSystem ∧
    inLaunch ⟨1, 2, 1⟩ ⟨1, 1, 1⟩ ⟨0, 1, 0⟩ ⟨0, 0, 0⟩ ∧
    (⟨0, 1, 0⟩ : Dim3) ≠ ⟨0, 0, 0⟩ ∧
    WriteKernel exampleConsts ⟨0, 1, 0⟩ ⟨1, 1, 1⟩ ⟨0, 0, 0⟩ = Write exampleConsts .kSystem ∧
    ReadKernel ⟨0, 1, 0⟩ ⟨1, 1, 1⟩ ⟨0, 0, 0⟩ = Read .kSystem := by
  refine ⟨by decide, by decide, by decide, by decide, by decide, by decide, by decide,
    by decide⟩

/-- C8, amended: for every one-dimensional launch configuration with at most `2 ^ 32`
threads (`gridDim.x * blockDim.x <= 2 ^ 32`, the `y` and `z` extents being 1), such as the
one-block, one-thread launches of both scenarios, and every thread of the launch:
`WriteKernel` and `ReadKernel` perform their write/read/fence in the first logical thread
(block 0, thread 0) and are no-ops in every other thread; the guard is `tid == 0` with
`tid = blockIdx.x * blockDim.x + threadIdx.x` computed in 32-bit arithmetic and stored in an
`int`. -/
theorem kernels_act_in_first_thread_only (c : Consts)
    (gridDim blockDim blockIdx threadIdx : Dim3)
    (h1d : gridDim.y = 1 ∧ gridDim.z = 1 ∧ blockDim.y = 1 ∧ blockDim.z = 1)
    (hsz : gridDim.x * blockDim.x ≤ 2 ^ 32)
    (hin : inLaunch gridDim blockDim blockIdx threadIdx) :
    ((blockIdx = ⟨0, 0, 0⟩ ∧ threadIdx = ⟨0, 0, 0⟩) →
      WriteKernel c blockIdx blockDim threadIdx = Write c .kSystem ∧
      ReadKernel blockIdx blockDim threadIdx = Read .kSystem) ∧
    (¬ (blockIdx = ⟨0, 0, 0⟩ ∧ threadIdx = ⟨0, 0, 0⟩) →
      WriteKernel c blockIdx blockDim threadIdx = [] ∧
      ReadKernel blockIdx blockDim threadIdx = []) := by
  obtain ⟨hbx, hby, hbz, htx, hty, htz⟩ := hin
  obtain ⟨g1, g2, g3, g4⟩ := h1d
  have hiff := tid_eq_zero_iff gridDim blockDim blockIdx threadIdx hsz hbx htx
  have hfirst : (blockIdx = ⟨0, 0, 0⟩ ∧ threadIdx = ⟨0, 0, 0⟩) ↔
      (blockIdx.x = 0 ∧ threadIdx.x = 0) := by
    obtain ⟨bx, by1, bz⟩ := blockIdx
    obtain ⟨tx, ty, tz⟩ := threadIdx
    simp only [Dim3.mk.injEq] at *
    constructor
    · rintro ⟨⟨h1, _, _⟩, ⟨h2, _, _⟩⟩
      exact ⟨h1, h2⟩
    · rintro ⟨h1, h2⟩
      refine ⟨⟨h1, ?_, ?_⟩, ⟨h2, ?_, ?_⟩⟩ <;> omega
  constructor
  · intro hft
    have h0 := hiff.mpr (hfirst.mp hft)
    simp [WriteKernel, ReadKernel, h0]
  · intro hne
    have h0 : ¬ tid blockIdx blockDim threadIdx = 0 := fun h => hne (hfirst.mpr (hiff.mp h))
    simp [WriteKernel, ReadKernel, h0]

theorem kernels_act_in_first_thread_only_witness :
    inLaunch ⟨1, 1, 1⟩ ⟨1, 1, 1⟩ ⟨0, 0, 0⟩ ⟨0, 0, 0⟩ ∧
    WriteKernel exampleConsts ⟨0, 0, 0⟩ ⟨1, 1, 1⟩ ⟨0, 0, 0⟩ = Write exampleConsts .kSystem ∧
    ReadKernel ⟨0, 0, 0⟩ ⟨1, 1, 1⟩ ⟨0, 0, 0⟩ = Read .kSystem :=
  ⟨by decide, (kernels_act_in_first_thread_only exampleConsts ⟨1, 1, 1⟩ ⟨1, 1, 1⟩ ⟨0, 0, 0⟩
    ⟨0, 0, 0⟩ ⟨rfl, rfl, rfl, rfl⟩ (by decide) (by decide)).1 ⟨rfl, rfl⟩⟩

end Threadfence
